import Mathlib

/-!
Verification of the QuadraSystem.net translation pipeline.

Shallow embedding of the repository's Python modules:
* `translator.py`   — language table, detection, Gemini translation, history store
* `pdf_processor.py` — chunked document translation and DOCX reconstruction
* `app.py`          — Streamlit orchestrator (col2 translation block, audio extraction)
* `speech.py`       — real-time voice translator's speech-to-text
* `video.py`        — video dubbing pipeline (file-system effects)

Remote services (langdetect, the Gemini API, Google speech recognition) are
modelled as explicit oracles: an `Except` value stands for the outcome of the
remote call, an `.error` constructor standing for the exception the Python
library would raise.  File-system state is a list of existing paths.
-/

set_option maxRecDepth 4096

/-! ## translator.py : language tables -/

/-- The `LANGUAGES` dict of `translator.py`, in insertion order. -/
def LANGUAGES : List (String × String) :=
  [("English", "en"), ("Spanish", "es"), ("French", "fr"), ("German", "de"),
   ("Italian", "it"), ("Portuguese", "pt"), ("Chinese", "zh"), ("Japanese", "ja"),
   ("Russian", "ru"), ("Hindi", "hi"), ("Arabic", "ar"), ("Tamil", "ta")]

/-- Python's `LANGUAGES.values()`. -/
def langCodes : List String := LANGUAGES.map Prod.snd

/-- Lookup in a Python dict built from an association list: first matching key. -/
def dictGet (l : List (String × String)) (k : String) : Option String :=
  (l.find? (fun p => p.1 = k)).map Prod.snd

/-- The `LANGUAGE_CODES = {v: k for k, v in LANGUAGES.items()}` reverse dict of
`translator.py`.  Later duplicate keys would overwrite earlier ones, so the
dict comprehension is modelled by keeping the last binding for each key. -/
def LANGUAGE_CODES : List (String × String) :=
  (LANGUAGES.map (fun p => (p.2, p.1))).foldl
    (fun acc p => (acc.filter (fun q => q.1 ≠ p.1)) ++ [p]) []

/-! ## translator.py : GeminiTranslator.detect_language -/

/-- Outcome of the `langdetect.detect` call: `.error` models the exception the
library raises (e.g. on empty or undetectable input), `.ok c` a detected code. -/
def DetectOutcome := Except Unit String

/-- `GeminiTranslator.detect_language` from `translator.py`: returns the
detected code when it is in `LANGUAGES.values()`, otherwise `"en"`; any
exception from the detector also yields `"en"`. -/
def detect_language (d : Except Unit String) : String :=
  match d with
  | Except.error _ => "en"
  | Except.ok c => if c ∈ langCodes then c else "en"

/-! ## translator.py : GeminiTranslator.translate -/

/-- The prompt f-string of `GeminiTranslator.translate`. -/
def gemini_prompt (target_language text : String) : String :=
  "Translate the following text to " ++ target_language ++
    ". Only return the translated text without any additional commentary. Text: " ++ text

/-- Python's `str.strip()`: drop leading and trailing whitespace. -/
def pyStrip (s : String) : String :=
  ⟨((s.data.dropWhile Char.isWhitespace).reverse.dropWhile Char.isWhitespace).reverse⟩

/-- `GeminiTranslator.translate` from `translator.py`.  The Gemini API call
(`generate_content` followed by the `.text` accessor) is the oracle `api`;
`.error e` models any raised exception with message `e`.  The `try/except`
turns an exception into the string `"Error translating text: " ++ e`. -/
def GeminiTranslator.translate (api : String → Except String String)
    (text target_language : String) : String :=
  match api (gemini_prompt target_language text) with
  | Except.ok r => pyStrip r
  | Except.error e => "Error translating text: " ++ e

/-! ## translator.py : history store -/

/-- One entry appended by `add_to_history`. -/
structure TranslationRecord where
  original : String
  source_language : String
  target_language : String
  translation : String
deriving DecidableEq

/-- The `self.history` dict: chat name to ordered list of records. -/
abbrev History := List (String × List TranslationRecord)

/-- Python dict lookup on the history store (first matching key). -/
def histLookup : History → String → Option (List TranslationRecord)
  | [], _ => none
  | (k, v) :: rest, c => if k = c then some v else histLookup rest c

/-- `GeminiTranslator.add_to_history`: create an empty list for a new chat
name (Python dicts append new keys at the end), then append the record. -/
def add_to_history (h : History) (chat_name : String) (r : TranslationRecord) : History :=
  match histLookup h chat_name with
  | none => h ++ [(chat_name, [r])]
  | some _ => h.map (fun p => if p.1 = chat_name then (p.1, p.2 ++ [r]) else p)

/-- `GeminiTranslator.show_history`: `self.history.get(chat_name, [])`.  A pure
read — the store is returned unchanged by construction. -/
def show_history (h : History) (chat_name : String) : List TranslationRecord :=
  (histLookup h chat_name).getD []

/-! ## pdf_processor.py : AdvancedDocumentTranslator.translate_text

Text is embedded as `List Char` so that Python slicing `text[i : i + 10000]`
becomes `take`/`drop`.  The chunk size in the source is the literal `10000`;
`chunksAux n` produces chunks of size `n + 1`, so the source's chunking is
`chunksAux 9999`. -/

/-- Python's `[text[i : i + (n+1)] for i in range(0, len(text), n+1)]`. -/
def chunksAux (n : Nat) (l : List Char) : List (List Char) :=
  if h : l = [] then []
  else l.take (n + 1) :: chunksAux n (l.drop (n + 1))
termination_by l.length
decreasing_by
  have hl : 0 < l.length := List.length_pos.mpr h
  simp only [List.length_drop]
  omega

/-- The chunking of `translate_text`: contiguous slices of 10000 characters. -/
def chunksList (l : List Char) : List (List Char) := chunksAux 9999 l

/-- Python's `" ".join(...)` on the per-chunk results. -/
def joinSpace (l : List (List Char)) : List Char := List.intercalate [' '] l

/-- The per-chunk prompt f-string of `translate_text`. -/
def chunk_prompt (target_language chunk : List Char) : List Char :=
  "Translate this text chunk to ".data ++ target_language ++ ":\n\n".data ++ chunk

/-- The single-call prompt f-string of `translate_text`. -/
def single_prompt (target_language text : List Char) : List Char :=
  "Translate the following text to ".data ++ target_language ++
    ". Preserve original formatting:\n\n".data ++ text

/-- The chunk loop of `translate_text`: issue one API call per chunk in order,
stopping at the first exception.  Returns the collected responses (or the
first error) together with the list of prompts actually sent. -/
def runChunks (api : List Char → Except String (List Char)) (target_language : List Char) :
    List (List Char) → Except String (List (List Char)) × List (List Char)
  | [] => (Except.ok [], [])
  | c :: cs =>
    match api (chunk_prompt target_language c) with
    | Except.error e => (Except.error e, [chunk_prompt target_language c])
    | Except.ok r =>
      let rest := runChunks api target_language cs
      (rest.1.map (fun rs => r :: rs), chunk_prompt target_language c :: rest.2)

/-- `AdvancedDocumentTranslator.translate_text` from `pdf_processor.py`.
Returns the translation result (`none` models the Python `None` returned for
empty input or after a caught exception) paired with the list of prompts sent
to the remote API, in order. -/
def translate_text (api : List Char → Except String (List Char))
    (text target_language : List Char) : Option (List Char) × List (List Char) :=
  if text = [] then (none, [])
  else if 10000 < text.length then
    match runChunks api target_language (chunksList text) with
    | (Except.ok rs, calls) => (some (joinSpace rs), calls)
    | (Except.error _, calls) => (none, calls)
  else
    match api (single_prompt target_language text) with
    | Except.ok r => (some r, [single_prompt target_language text])
    | Except.error _ => (none, [single_prompt target_language text])

/-! ## app.py : the col2 translation block

The block runs after col1 produced `source_text`.  Detection and translation
oracles are passed in; the outputs record which UI areas were rendered, how
many Translator calls were made, and the record appended to the history. -/

/-- Observable outcome of one run of the col2 block of `app.py`. -/
structure Col2Out where
  translated : Option String
  translatorCalls : Nat
  shownOriginal : Option String
  shownTranslated : Option String
  historyAppend : Option TranslationRecord
deriving DecidableEq

/-- The col2 translation block of `app.py` (lines 224-284): when `source_text`
is truthy, detect its language; when the detected code differs from the target
code call `GeminiTranslator.translate`, and when the result is truthy render
it and append a history record; otherwise render the original text. -/
def col2_block (detectO : Except Unit String) (api : String → Except String String)
    (source_text target_lang_code : String) : Col2Out :=
  if source_text = "" then
    ⟨none, 0, none, none, none⟩
  else
    let detected_source_lang := detect_language detectO
    if detected_source_lang ≠ target_lang_code then
      let t := GeminiTranslator.translate api source_text target_lang_code
      if t ≠ "" then
        ⟨some t, 1, none, some t,
          some ⟨source_text, detected_source_lang, target_lang_code, t⟩⟩
      else
        ⟨some t, 1, none, none, none⟩
    else
      ⟨none, 0, some source_text, none, none⟩

/-! ## pdf_processor.py : AdvancedDocumentTranslator.replace_document_content
(DOCX branch)

A paragraph records the attributes the source sets: text, alignment, and the
first run's font name and size.  Alignment values (`WD_PARAGRAPH_ALIGNMENT`)
are modelled as naturals; font sizes (`Pt` lengths, falsy at 0) as naturals. -/

/-- One entry of the `paragraph_styles` list built by `extract_text`. -/
structure StyleRec where
  alignment : Option Nat
  styleName : Option String
  font_name : Option String
  font_size : Option Nat
deriving DecidableEq

/-- An emitted paragraph: `python-docx` `add_paragraph(text)` creates a run
only for nonempty text, so `font_name`/`font_size` stay `none` (default) on
empty lines. -/
structure Paragraph where
  text : List Char
  alignment : Option Nat
  font_name : Option String
  font_size : Option Nat
deriving DecidableEq

/-- Python's `translated_text.split("\n")`. -/
def splitLines : List Char → List (List Char)
  | [] => [[]]
  | c :: cs =>
    if c = '\n' then [] :: splitLines cs
    else
      match splitLines cs with
      | [] => [[c]]
      | l :: ls => (c :: l) :: ls

/-- The body of the per-line loop of `replace_document_content` (DOCX branch):
`style = none` models the falsy `{}` used past the end of the style list.
Alignment is applied when not `None`; fonts only when the paragraph has runs
(nonempty line) and the recorded value is truthy. -/
def emitParagraph (line : List Char) (style : Option StyleRec) : Paragraph :=
  match style with
  | none => ⟨line, none, none, none⟩
  | some s =>
    let p1 : Paragraph :=
      match s.alignment with
      | some a => ⟨line, some a, none, none⟩
      | none => ⟨line, none, none, none⟩
    if line = [] then p1
    else
      let p2 : Paragraph :=
        match s.font_name with
        | some n => if n ≠ "" then { p1 with font_name := some n } else p1
        | none => p1
      match s.font_size with
      | some sz => if sz ≠ 0 then { p2 with font_size := some sz } else p2
      | none => p2

/-- The DOCX branch of `replace_document_content`: all original paragraphs are
removed, then one paragraph is emitted per line of the translated text, styled
from the positionally corresponding entry of `original_metadata["styles"]`. -/
def replace_document_content_docx (translated_text : List Char)
    (styles : List StyleRec) : List Paragraph :=
  (splitLines translated_text).enum.map (fun p => emitParagraph p.2 styles[p.1]?)

/-! ## speech.py and app.py : speech recognition -/

/-- Outcome of a `recognizer.recognize_google` call: success, the
`sr.UnknownValueError` raised for unintelligible audio, the `sr.RequestError`
raised on transport failure, or any other exception. -/
inductive RecResult where
  | ok (text : String)
  | unknownValue
  | requestError (msg : String)
  | otherError (msg : String)
deriving DecidableEq

/-- `RealTimeVoiceTranslator.speech_to_text` from `speech.py`: every failure
branch (`sr.UnknownValueError`, `sr.RequestError`, generic `Exception`) falls
through to `return ""`. -/
def speech_to_text (r : RecResult) : String :=
  match r with
  | RecResult.ok t => t
  | RecResult.unknownValue => ""
  | RecResult.requestError _ => ""
  | RecResult.otherError _ => ""

/-- `recognize_speech_from_microphone` from `app.py`: success returns the
text, the two caught recognizer errors (`sr.UnknownValueError`,
`sr.RequestError`) return Python `None` (here `Except.ok none`); any other
exception is not caught and propagates (`Except.error`). -/
def recognize_speech_from_microphone (r : RecResult) : Except String (Option String) :=
  match r with
  | RecResult.ok t => Except.ok (some t)
  | RecResult.unknownValue => Except.ok none
  | RecResult.requestError _ => Except.ok none
  | RecResult.otherError m => Except.error m

/-! ## app.py / video.py : temporary-file effects

The file system is the list of existing paths.  `tempfile.mktemp` names are
modelled as fixed fresh paths. -/

/-- The `tempfile.mktemp(suffix=".mp4")` path of `extract_audio_and_transcribe`. -/
def temp_video_path : String := "tmp_video.mp4"

/-- The `tempfile.mktemp(suffix=".wav")` path of `extract_audio_and_transcribe`. -/
def audio_path : String := "tmp_audio.wav"

/-- `extract_audio_and_transcribe` from `app.py`, tracking file-system state.
`demuxOk` is whether opening the clip and writing the waveform succeeds; `asr`
is the recognizer outcome.  The two `os.remove` calls run only on the success
path; the `except` clause returns `None` without any cleanup. -/
def extract_audio_and_transcribe (demuxOk : Bool) (asr : RecResult)
    (fs : List String) : Option String × List String :=
  let fs1 := temp_video_path :: fs
  if demuxOk then
    let fs2 := audio_path :: fs1
    match asr with
    | RecResult.ok t => (some t, (fs2.erase temp_video_path).erase audio_path)
    | _ => (none, fs2)
  else (none, fs1)

/-- `video_to_translate` from `video.py`, tracking file-system state: it
writes `test.wav`, `audio.wav` and the dubbed video, and deletes nothing on
any path.  `lang_out` is the resolved output language code. -/
def video_to_translate (lang_out : String) (fs : List String) :
    String × List String :=
  let fs1 := "test.wav" :: fs
  let fs2 := "audio.wav" :: fs1
  let new_video := "video_translated_" ++ lang_out ++ ".mp4"
  (new_video, new_video :: fs2)

/-- Truthy projection of a recorded font name, as used by
`if style["font_name"]:` (Python `None` and `""` are falsy). -/
def truthyName : Option String → Option String
  | some n => if n = "" then none else some n
  | none => none

/-- Truthy projection of a recorded font size, as used by
`if style["font_size"]:` (Python `None` and `Pt(0)` are falsy). -/
def truthySize : Option Nat → Option Nat
  | some n => if n = 0 then none else some n
  | none => none

/-! ## Helper lemmas on the chunking of `translate_text` -/

theorem chunksAux_nil (n : Nat) : chunksAux n [] = [] := by
  rw [chunksAux]
  simp

theorem chunksAux_cons (n : Nat) (l : List Char) (h : l ≠ []) :
    chunksAux n l = l.take (n + 1) :: chunksAux n (l.drop (n + 1)) := by
  rw [chunksAux]
  simp [h]

theorem chunksAux_eq_nil_iff (n : Nat) (l : List Char) :
    chunksAux n l = [] ↔ l = [] := by
  constructor
  · intro h
    by_contra hne
    rw [chunksAux_cons n l hne] at h
    exact List.cons_ne_nil _ _ h
  · intro h
    subst h
    exact chunksAux_nil n

theorem chunksAux_join_aux (n k : Nat) :
    ∀ l : List Char, l.length ≤ k → (chunksAux n l).flatten = l := by
  induction k with
  | zero =>
    intro l hl
    have hnil : l = [] := List.eq_nil_of_length_eq_zero (Nat.le_zero.mp hl)
    subst hnil
    simp [chunksAux_nil]
  | succ k ih =>
    intro l hl
    by_cases h : l = []
    · subst h
      simp [chunksAux_nil]
    · rw [chunksAux_cons n l h]
      have hp : 0 < l.length := List.length_pos.mpr h
      have hd : (l.drop (n + 1)).length ≤ k := by
        simp only [List.length_drop]
        omega
      rw [List.flatten_cons, ih _ hd, List.take_append_drop]

theorem chunksAux_join (n : Nat) (l : List Char) : (chunksAux n l).flatten = l :=
  chunksAux_join_aux n l.length l le_rfl

theorem chunksAux_length_aux (n k : Nat) :
    ∀ l : List Char, l.length ≤ k →
      (chunksAux n l).length = (l.length + n) / (n + 1) := by
  induction k with
  | zero =>
    intro l hl
    have hnil : l = [] := List.eq_nil_of_length_eq_zero (Nat.le_zero.mp hl)
    subst hnil
    rw [chunksAux_nil]
    simp [Nat.div_eq_of_lt (Nat.lt_succ_self n)]
  | succ k ih =>
    intro l hl
    by_cases h : l = []
    · subst h
      rw [chunksAux_nil]
      simp [Nat.div_eq_of_lt (Nat.lt_succ_self n)]
    · rw [chunksAux_cons n l h]
      have hp : 0 < l.length := List.length_pos.mpr h
      have hd : (l.drop (n + 1)).length ≤ k := by
        simp only [List.length_drop]
        omega
      rw [List.length_cons, ih _ hd, List.length_drop]
      by_cases hle : l.length ≤ n + 1
      · have h1 : l.length - (n + 1) + n = n := by omega
        rw [h1, Nat.div_eq_of_lt (by omega)]
        have h2 : (l.length + n) / (n + 1) = 1 := by
          apply Nat.div_eq_of_lt_le
          · omega
          · omega
        omega
      · have h1 : l.length - (n + 1) + n = l.length - 1 := by omega
        have h2 : l.length + n = (l.length - 1) + (n + 1) := by omega
        rw [h1, h2, Nat.add_div_right _ (by omega : 0 < n + 1)]

theorem chunksAux_length (n : Nat) (l : List Char) :
    (chunksAux n l).length = (l.length + n) / (n + 1) :=
  chunksAux_length_aux n l.length l le_rfl

theorem chunksAux_sizes_aux (n k : Nat) :
    ∀ l : List Char, l.length ≤ k →
      ((chunksAux n l).all (fun c => decide (c.length ≤ n + 1 ∧ c ≠ []))) = true := by
  induction k with
  | zero =>
    intro l hl
    have hnil : l = [] := List.eq_nil_of_length_eq_zero (Nat.le_zero.mp hl)
    subst hnil
    simp [chunksAux_nil]
  | succ k ih =>
    intro l hl
    by_cases h : l = []
    · subst h
      simp [chunksAux_nil]
    · rw [chunksAux_cons n l h]
      have hp : 0 < l.length := List.length_pos.mpr h
      have hd : (l.drop (n + 1)).length ≤ k := by
        simp only [List.length_drop]
        omega
      rw [List.all_cons, ih _ hd]
      have hlen : (l.take (n + 1)).length ≤ n + 1 := by
        simp [List.length_take]
      have hne : l.take (n + 1) ≠ [] := by
        rw [Ne, List.take_eq_nil_iff]
        push_neg
        exact ⟨by omega, h⟩
      simp [hlen, hne]

theorem chunksAux_sizes (n : Nat) (l : List Char) :
    ((chunksAux n l).all (fun c => decide (c.length ≤ n + 1 ∧ c ≠ []))) = true :=
  chunksAux_sizes_aux n l.length l le_rfl

theorem chunksAux_dropLast_aux (n k : Nat) :
    ∀ l : List Char, l.length ≤ k →
      ((chunksAux n l).dropLast.all (fun c => c.length == n + 1)) = true := by
  induction k with
  | zero =>
    intro l hl
    have hnil : l = [] := List.eq_nil_of_length_eq_zero (Nat.le_zero.mp hl)
    subst hnil
    simp [chunksAux_nil]
  | succ k ih =>
    intro l hl
    by_cases h : l = []
    · subst h
      simp [chunksAux_nil]
    · rw [chunksAux_cons n l h]
      by_cases hd : l.drop (n + 1) = []
      · rw [hd, chunksAux_nil]
        simp
      · have hrest : chunksAux n (l.drop (n + 1)) ≠ [] := by
          rw [Ne, chunksAux_eq_nil_iff]
          exact hd
        have hp : 0 < l.length := List.length_pos.mpr h
        have hlen : (l.take (n + 1)).length = n + 1 := by
          rw [List.length_take]
          have : ¬ l.length ≤ n + 1 := by
            intro hcon
            exact hd (List.drop_eq_nil_iff.mpr hcon)
          omega
        have hdl : (l.drop (n + 1)).length ≤ k := by
          simp only [List.length_drop]
          omega
        rw [List.dropLast_cons_of_ne_nil hrest, List.all_cons, ih _ hdl]
        simp [hlen]

theorem chunksAux_dropLast (n : Nat) (l : List Char) :
    ((chunksAux n l).dropLast.all (fun c => c.length == n + 1)) = true :=
  chunksAux_dropLast_aux n l.length l le_rfl

theorem runChunks_ok (f : List Char → List Char) (target_language : List Char) :
    ∀ cs : List (List Char),
      runChunks (fun p => Except.ok (f p)) target_language cs =
        (Except.ok (cs.map (fun c => f (chunk_prompt target_language c))),
         cs.map (chunk_prompt target_language)) := by
  intro cs
  induction cs with
  | nil => rfl
  | cons c cs ih => simp [runChunks, ih, Except.map]

theorem runChunks_error_head (api : List Char → Except String (List Char))
    (target_language : List Char) (c : List Char) (cs : List (List Char)) (e : String)
    (h : api (chunk_prompt target_language c) = Except.error e) :
    runChunks api target_language (c :: cs) =
      (Except.error e, [chunk_prompt target_language c]) := by
  simp [runChunks, h]

/-! ## Helper lemmas on the history store -/

theorem histLookup_map_append (h : History) (chat c : String) (r : TranslationRecord) :
    histLookup (h.map (fun p => if p.1 = chat then (p.1, p.2 ++ [r]) else p)) c =
      if c = chat then (histLookup h c).map (fun v => v ++ [r])
      else histLookup h c := by
  induction h with
  | nil => simp [histLookup]
  | cons p t ih =>
    obtain ⟨k, v⟩ := p
    rw [List.map_cons]
    by_cases hk : k = chat
    · rw [if_pos hk]
      simp only [histLookup]
      by_cases hc : k = c
      · subst hc
        subst hk
        simp
      · have hc2 : ¬ c = k := fun h2 => hc h2.symm
        subst hk
        simp [hc, hc2, ih]
    · rw [if_neg hk]
      simp only [histLookup]
      by_cases hc : k = c
      · subst hc
        simp [hk]
      · simp [hc, ih]

theorem histLookup_append (h1 h2 : History) (c : String) :
    histLookup (h1 ++ h2) c =
      match histLookup h1 c with
      | some v => some v
      | none => histLookup h2 c := by
  induction h1 with
  | nil => simp [histLookup]
  | cons p t ih =>
    obtain ⟨k, v⟩ := p
    by_cases hc : k = c
    · simp [histLookup, hc]
    · simp [histLookup, hc, ih]

/-! ## Helper lemmas on DOCX reconstruction -/

theorem splitLines_ne_nil (l : List Char) : splitLines l ≠ [] := by
  induction l with
  | nil => simp [splitLines]
  | cons c cs ih =>
    rw [splitLines]
    by_cases h : c = '\n'
    · simp [h]
    · simp only [if_neg h]
      cases hs : splitLines cs with
      | nil => simp
      | cons l ls => simp

theorem replace_document_content_docx_getD (translated_text : List Char)
    (styles : List StyleRec) (i : Nat)
    (hi : i < (splitLines translated_text).length) :
    (replace_document_content_docx translated_text styles).getD i ⟨[], none, none, none⟩ =
      emitParagraph ((splitLines translated_text).getD i []) styles[i]? := by
  have h1 : (splitLines translated_text).enum[i]? =
      some (i, (splitLines translated_text).getD i []) := by
    rw [List.getElem?_enum, List.getD_eq_getElem?_getD]
    cases hg : (splitLines translated_text)[i]? with
    | none =>
      rw [List.getElem?_eq_none_iff] at hg
      omega
    | some a => simp
  unfold replace_document_content_docx
  rw [List.getD_eq_getElem?_getD, List.getElem?_map, h1]
  simp

theorem emitParagraph_fields (line : List Char) (s : StyleRec) :
    (emitParagraph line (some s)).text = line ∧
    (emitParagraph line (some s)).alignment = s.alignment ∧
    (line = [] → (emitParagraph line (some s)).font_name = none ∧
                 (emitParagraph line (some s)).font_size = none) ∧
    (line ≠ [] → (emitParagraph line (some s)).font_name = truthyName s.font_name ∧
                 (emitParagraph line (some s)).font_size = truthySize s.font_size) := by
  obtain ⟨al, st, fn, fs⟩ := s
  refine ⟨?_, ?_, fun hl => ?_, fun hl => ?_⟩
  · cases al <;> cases fn <;> cases fs <;> by_cases hl : line = [] <;>
      simp [emitParagraph, hl] <;> split_ifs <;> rfl
  · cases al <;> cases fn <;> cases fs <;> by_cases hl : line = [] <;>
      simp [emitParagraph, hl] <;> split_ifs <;> rfl
  · cases al <;> simp [emitParagraph, hl]
  · cases al <;> cases fn <;> cases fs <;>
      simp [emitParagraph, truthyName, truthySize, hl] <;> split_ifs <;> simp_all

/-! ## Claim theorems -/

/-- C1: `detect_language` never raises (it is total over every detector
outcome) and always returns a code from `LANGUAGES.values()`; a detector
exception or an unsupported detected code yields the default `"en"`, and a
supported detected code is returned unchanged. -/
theorem claim1_detect_language_total_and_supported (d : Except Unit String) :
    detect_language d ∈ langCodes ∧
    (d = Except.error () → detect_language d = "en") ∧
    (∀ c, d = Except.ok c → c ∈ langCodes → detect_language d = c) ∧
    (∀ c, d = Except.ok c → c ∉ langCodes → detect_language d = "en") := by
  refine ⟨?_, ?_, ?_, ?_⟩
  · cases d with
    | error _ => simp [detect_language]; decide
    | ok c =>
      by_cases h : c ∈ langCodes
      · simp [detect_language, h]
      · simp [detect_language, h]; decide
  · intro he
    subst he
    rfl
  · intro c hc hmem
    subst hc
    simp [detect_language, hmem]
  · intro c hc hmem
    subst hc
    simp [detect_language, hmem]

/-- Witness for C1 at the concrete detector outcome `.ok "fr"`. -/
theorem claim1_witness :
    detect_language (Except.ok "fr") ∈ langCodes ∧
    detect_language (Except.ok "fr") = "fr" :=
  ⟨(claim1_detect_language_total_and_supported (Except.ok "fr")).1,
   (claim1_detect_language_total_and_supported (Except.ok "fr")).2.2.1 "fr" rfl (by decide)⟩

/-- C2 (counterexample): the claim asserts that every input of length at most
10000 causes exactly one API call, but `translate_text` on the empty string
(length 0) returns `None` after zero API calls (`if not text: return None`). -/
theorem claim2_counterexample :
    (translate_text (fun p => Except.ok p) [] ['e', 's']).2.length = 0 ∧
    (translate_text (fun p => Except.ok p) [] ['e', 's']).1 = none := by
  constructor <;> rfl

/-- C2 (amended): for every successful API oracle `f` and every text, the
chunking of `translate_text` is into contiguous slices whose concatenation is
the original text, each of length at most 10000 and nonempty, all but the last
exactly 10000; the number of chunks is `ceil(N/10000) = (N + 9999) / 10000`;
for `N > 10000` one prompt per chunk is sent in order and the result is the
space-joined list of per-chunk responses; for `0 < N ≤ 10000` exactly one
prompt carrying the whole text is sent; for `N = 0` no call is made and the
result is `none`. -/
theorem claim2_chunking_amended (f : List Char → List Char)
    (text target_language : List Char) :
    (chunksList text).flatten = text ∧
    (chunksList text).length = (text.length + 9999) / 10000 ∧
    ((chunksList text).dropLast.all (fun c => c.length == 10000)) = true ∧
    ((chunksList text).all (fun c => decide (c.length ≤ 10000 ∧ c ≠ []))) = true ∧
    (translate_text (fun p => Except.ok (f p)) text target_language).2 =
      (if text = [] then []
       else if 10000 < text.length then (chunksList text).map (chunk_prompt target_language)
       else [single_prompt target_language text]) ∧
    (translate_text (fun p => Except.ok (f p)) text target_language).1 =
      (if text = [] then none
       else if 10000 < text.length then
         some (joinSpace ((chunksList text).map (fun c => f (chunk_prompt target_language c))))
       else some (f (single_prompt target_language text))) := by
  refine ⟨chunksAux_join 9999 text, chunksAux_length 9999 text,
    chunksAux_dropLast 9999 text, chunksAux_sizes 9999 text, ?_, ?_⟩
  · unfold translate_text
    by_cases h0 : text = []
    · simp [h0]
    · simp only [if_neg h0]
      by_cases hlen : 10000 < text.length
      · simp only [if_pos hlen, runChunks_ok]
      · simp only [if_neg hlen]
  · unfold translate_text
    by_cases h0 : text = []
    · simp [h0]
    · simp only [if_neg h0]
      by_cases hlen : 10000 < text.length
      · simp only [if_pos hlen, runChunks_ok]
      · simp only [if_neg hlen]

/-- C10: `LANGUAGE_CODES` is an exact inverse of `LANGUAGES` — the twelve
codes in `LANGUAGES.values()` are pairwise distinct, and composing the two
dict lookups maps every display name back to itself. -/
theorem claim10_language_codes_inverse :
    langCodes.Nodup ∧ langCodes.length = 12 ∧
    (LANGUAGES.all (fun p =>
      decide (dictGet LANGUAGES p.1 = some p.2 ∧
              dictGet LANGUAGE_CODES p.2 = some p.1))) = true := by
  decide

/-- C3 (counterexample): the claim fails for the empty source text — the
detected language (`"en"` after the detector's exception on empty input)
equals the target `"en"`, no Translator call occurs, but the original text is
not surfaced (the col2 block renders nothing when `source_text` is falsy). -/
theorem claim3_counterexample :
    detect_language (Except.error ()) = "en" ∧
    (col2_block (Except.error ()) (fun _ => Except.ok "") "" "en").translatorCalls = 0 ∧
    (col2_block (Except.error ()) (fun _ => Except.ok "") "" "en").shownOriginal = none := by
  refine ⟨rfl, rfl, rfl⟩

/-- C3 (amended): for every nonempty source text, when the detected source
code equals the target code the orchestrator makes no Translator call and
surfaces the original text unchanged; moreover, for all inputs, the
Translator is invoked only when the detected code differs from the target. -/
theorem claim3_skip_when_same_language (detectO : Except Unit String)
    (api : String → Except String String) (source_text target_lang_code : String)
    (hne : source_text ≠ "") (heq : detect_language detectO = target_lang_code) :
    (col2_block detectO api source_text target_lang_code).translatorCalls = 0 ∧
    (col2_block detectO api source_text target_lang_code).shownOriginal = some source_text ∧
    (col2_block detectO api source_text target_lang_code).translated = none ∧
    (∀ d a s t, 0 < (col2_block d a s t).translatorCalls → detect_language d ≠ t) := by
  refine ⟨?_, ?_, ?_, ?_⟩
  · simp [col2_block, hne, heq]
  · simp [col2_block, hne, heq]
  · simp [col2_block, hne, heq]
  · intro d a s t hcalls
    by_cases hs : s = ""
    · simp [col2_block, hs] at hcalls
    · by_cases hd : detect_language d ≠ t
      · exact hd
      · push_neg at hd
        simp [col2_block, hs, hd] at hcalls

/-- Witness for C3 at source `"Bonjour"` with detected and target code `"fr"`. -/
theorem claim3_witness :
    (col2_block (Except.ok "fr") (fun _ => Except.ok "x") "Bonjour" "fr").translatorCalls = 0 ∧
    (col2_block (Except.ok "fr") (fun _ => Except.ok "x") "Bonjour" "fr").shownOriginal =
      some "Bonjour" :=
  ⟨(claim3_skip_when_same_language (Except.ok "fr") (fun _ => Except.ok "x")
      "Bonjour" "fr" (by decide) (by decide)).1,
   (claim3_skip_when_same_language (Except.ok "fr") (fun _ => Except.ok "x")
      "Bonjour" "fr" (by decide) (by decide)).2.1⟩

/-- C4: when the remote API raises, both translator clients catch the
exception and return a failure value instead of propagating it —
`GeminiTranslator.translate` returns the error string
`"Error translating text: " ++ e`, and `AdvancedDocumentTranslator.translate_text`
returns `None`.  (Both embeddings are total functions: no exception escapes.) -/
theorem claim4_translate_catches_api_errors
    (apiS : String → Except String String) (apiL : List Char → Except String (List Char))
    (e : String) (text target_language : String) (textL targetL : List Char)
    (hS : ∀ p, apiS p = Except.error e) (hL : ∀ p, apiL p = Except.error e)
    (hne : textL ≠ []) :
    GeminiTranslator.translate apiS text target_language =
      "Error translating text: " ++ e ∧
    (translate_text apiL textL targetL).1 = none := by
  constructor
  · unfold GeminiTranslator.translate
    rw [hS]
  · unfold translate_text
    rw [if_neg hne]
    by_cases hlen : 10000 < textL.length
    · rw [if_pos hlen]
      have hcne : chunksList textL ≠ [] := by
        rw [chunksList, Ne, chunksAux_eq_nil_iff]
        exact hne
      obtain ⟨c, cs, hcs⟩ := List.exists_cons_of_ne_nil hcne
      rw [hcs, runChunks_error_head apiL targetL c cs e (hL _)]
    · rw [if_neg hlen]
      rw [hL]

/-- Witness for C4 with an API that always raises `"boom"`. -/
theorem claim4_witness :
    GeminiTranslator.translate (fun _ => Except.error "boom") "hi" "es" =
      "Error translating text: " ++ "boom" ∧
    (translate_text (fun _ => Except.error "boom") "hi".data "es".data).1 = none :=
  claim4_translate_catches_api_errors (fun _ => Except.error "boom")
    (fun _ => Except.error "boom") "boom" "hi" "es" "hi".data "es".data
    (fun _ => rfl) (fun _ => rfl) (by decide)

/-- C8: the history store is append-only — `add_to_history` replaces the
named chat's sequence by its previous contents (empty for a new chat name)
followed by exactly the one new record, leaves every other chat's sequence
unchanged, and `show_history` is a pure read of the store. -/
theorem claim8_history_append_only (h : History) (chat_name c : String)
    (r : TranslationRecord) (hc : c ≠ chat_name) :
    show_history (add_to_history h chat_name r) chat_name =
      show_history h chat_name ++ [r] ∧
    histLookup (add_to_history h chat_name r) c = histLookup h c ∧
    show_history h c = (histLookup h c).getD [] := by
  refine ⟨?_, ?_, rfl⟩
  · unfold show_history add_to_history
    cases hl : histLookup h chat_name with
    | none =>
      rw [histLookup_append, hl]
      simp [histLookup]
    | some v =>
      rw [histLookup_map_append, if_pos rfl, hl]
      simp
  · unfold add_to_history
    cases hl : histLookup h chat_name with
    | none =>
      rw [histLookup_append]
      cases hlc : histLookup h c with
      | none =>
        have hc2 : ¬ chat_name = c := fun h2 => hc h2.symm
        simp [histLookup, hc2]
      | some v => simp
    | some v =>
      rw [histLookup_map_append, if_neg hc]

/-- Witness for C8: one append into an empty store. -/
theorem claim8_witness :
    show_history (add_to_history ([] : History) "DefaultChat"
        ⟨"Hello world", "en", "es", "Hola mundo"⟩) "DefaultChat" =
      show_history ([] : History) "DefaultChat" ++
        [⟨"Hello world", "en", "es", "Hola mundo"⟩] ∧
    histLookup (add_to_history ([] : History) "DefaultChat"
        ⟨"Hello world", "en", "es", "Hola mundo"⟩) "OtherChat" =
      histLookup ([] : History) "OtherChat" :=
  ⟨(claim8_history_append_only [] "DefaultChat" "OtherChat"
      ⟨"Hello world", "en", "es", "Hola mundo"⟩ (by decide)).1,
   (claim8_history_append_only [] "DefaultChat" "OtherChat"
      ⟨"Hello world", "en", "es", "Hola mundo"⟩ (by decide)).2.1⟩

/-- C9 (counterexample): `GeminiTranslator.translate` is not always nonempty —
a successful API response consisting only of whitespace is stripped to the
empty string, so the returned value can be empty. -/
theorem claim9_counterexample :
    GeminiTranslator.translate (fun _ => Except.ok " ") "Hello" "es" = "" := by
  decide

/-- C9 (amended): `GeminiTranslator.translate` is total; on any API failure it
returns the nonempty string `"Error translating text: " ++ e`, which is truthy,
so the orchestrator's `if translated_text:` check treats the failure as a
success: the error string is rendered, recorded in the history, and used as the
translation result. -/
theorem claim9_error_string_passes_truthiness (e text target_lang_code : String)
    (detectO : Except Unit String) (hne : text ≠ "")
    (hd : detect_language detectO ≠ target_lang_code) :
    GeminiTranslator.translate (fun _ => Except.error e) text target_lang_code =
      "Error translating text: " ++ e ∧
    GeminiTranslator.translate (fun _ => Except.error e) text target_lang_code ≠ "" ∧
    (col2_block detectO (fun _ => Except.error e) text target_lang_code).historyAppend =
      some ⟨text, detect_language detectO, target_lang_code,
            "Error translating text: " ++ e⟩ ∧
    (col2_block detectO (fun _ => Except.error e) text target_lang_code).translated =
      some ("Error translating text: " ++ e) := by
  have htr : GeminiTranslator.translate (fun _ => Except.error e) text target_lang_code =
      "Error translating text: " ++ e := rfl
  have hnz : ("Error translating text: " ++ e) ≠ "" := by
    intro h
    have h2 := congrArg String.length h
    rw [String.length_append] at h2
    have h24 : ("Error translating text: ").length = 24 := rfl
    rw [h24] at h2
    simp at h2
  have ht2 : GeminiTranslator.translate (fun _ => Except.error e) text target_lang_code ≠ "" := by
    rw [htr]
    exact hnz
  refine ⟨htr, ht2, ?_, ?_⟩
  · simp only [col2_block, if_neg hne, if_pos hd, htr]
    rw [if_pos hnz]
  · simp only [col2_block, if_neg hne, if_pos hd, htr]
    rw [if_pos hnz]

/-- Witness for C9 with error `"boom"`, source `"Hello"` detected `"en"`,
target `"es"`. -/
theorem claim9_witness :
    GeminiTranslator.translate (fun _ => Except.error "boom") "Hello" "es" =
      "Error translating text: " ++ "boom" ∧
    (col2_block (Except.ok "en") (fun _ => Except.error "boom") "Hello" "es").historyAppend =
      some ⟨"Hello", detect_language (Except.ok "en"), "es",
            "Error translating text: " ++ "boom"⟩ :=
  ⟨(claim9_error_string_passes_truthiness "boom" "Hello" "es" (Except.ok "en")
      (by decide) (by decide)).1,
   (claim9_error_string_passes_truthiness "boom" "Hello" "es" (Except.ok "en")
      (by decide) (by decide)).2.2.1⟩

/-- C5 (counterexample): the claim fails when a translated line is empty —
here `j = k = 1` and the single style record carries font name `"Arial"` and
size 12, but the emitted paragraph at index `0 < min(j,k)` has default fonts,
because `add_paragraph("")` creates no run and the `if para.runs:` guard skips
the font assignments. -/
theorem claim5_counterexample :
    (splitLines []).length = 1 ∧
    (replace_document_content_docx [] [⟨some 1, some "Normal", some "Arial", some 12⟩]) =
      [⟨[], some 1, none, none⟩] := by
  constructor <;> rfl

/-- C5 (amended): DOCX reconstruction emits one paragraph per translated line;
for `i < min(j,k)` the paragraph carries the alignment of style record `i`
always, and the record's font name and size exactly when the line is nonempty
(with Python-falsy recorded values — `None`, `""`, size 0 — falling back to
defaults); an empty line gets default fonts; for `k ≤ i < j` the paragraph is
fully default-styled. -/
theorem claim5_docx_styles_amended (translated_text : List Char)
    (styles : List StyleRec) (i : Nat)
    (hi : i < (splitLines translated_text).length) :
    (replace_document_content_docx translated_text styles).length =
      (splitLines translated_text).length ∧
    ((replace_document_content_docx translated_text styles).getD i
        ⟨[], none, none, none⟩).text = (splitLines translated_text).getD i [] ∧
    (∀ s, styles[i]? = some s →
      ((replace_document_content_docx translated_text styles).getD i
          ⟨[], none, none, none⟩).alignment = s.alignment ∧
      ((splitLines translated_text).getD i [] = [] →
        ((replace_document_content_docx translated_text styles).getD i
            ⟨[], none, none, none⟩).font_name = none ∧
        ((replace_document_content_docx translated_text styles).getD i
            ⟨[], none, none, none⟩).font_size = none) ∧
      ((splitLines translated_text).getD i [] ≠ [] →
        ((replace_document_content_docx translated_text styles).getD i
            ⟨[], none, none, none⟩).font_name = truthyName s.font_name ∧
        ((replace_document_content_docx translated_text styles).getD i
            ⟨[], none, none, none⟩).font_size = truthySize s.font_size)) ∧
    (styles[i]? = none →
      (replace_document_content_docx translated_text styles).getD i
          ⟨[], none, none, none⟩ =
        ⟨(splitLines translated_text).getD i [], none, none, none⟩) := by
  have key := replace_document_content_docx_getD translated_text styles i hi
  refine ⟨?_, ?_, ?_, ?_⟩
  · unfold replace_document_content_docx
    rw [List.length_map, List.enum_length]
  · rw [key]
    cases hs : styles[i]? with
    | none => rfl
    | some s => exact (emitParagraph_fields _ s).1
  · intro s hs
    rw [key, hs]
    exact ⟨(emitParagraph_fields _ s).2.1, (emitParagraph_fields _ s).2.2.1,
           (emitParagraph_fields _ s).2.2.2⟩
  · intro hs
    rw [key, hs]
    rfl

/-- Witness for C5 on the one-line text `"Hi"` with a styled record. -/
theorem claim5_witness :
    (replace_document_content_docx ['H', 'i']
        [⟨some 1, some "Normal", some "Arial", some 12⟩]).length =
      (splitLines ['H', 'i']).length ∧
    ((replace_document_content_docx ['H', 'i']
        [⟨some 1, some "Normal", some "Arial", some 12⟩]).getD 0
        ⟨[], none, none, none⟩).font_name = truthyName (some "Arial") := by
  have h := claim5_docx_styles_amended ['H', 'i']
    [⟨some 1, some "Normal", some "Arial", some 12⟩] 0 (by decide)
  have h3 := h.2.2.1 ⟨some 1, some "Normal", some "Arial", some 12⟩ rfl
  exact ⟨h.1, (h3.2.2 (by decide)).1⟩

/-- C6 (code bug): temporary files are not deleted on every path.  When the
recognizer raises after the demux step, `extract_audio_and_transcribe` returns
with both the temporary video and waveform files still present (its `except`
clause performs no cleanup); only the success path deletes them.  And
`video_to_translate` deletes neither `test.wav` nor `audio.wav` even on
success. -/
theorem claim6_temp_files_leak :
    (extract_audio_and_transcribe true RecResult.unknownValue []).2 =
      [audio_path, temp_video_path] ∧
    (extract_audio_and_transcribe true (RecResult.ok "hello") []).2 = [] ∧
    "test.wav" ∈ (video_to_translate "ta" []).2 ∧
    "audio.wav" ∈ (video_to_translate "ta" []).2 := by
  refine ⟨rfl, rfl, ?_, ?_⟩ <;> decide

/-- C7 (counterexample): the claim fails for `app.py`'s microphone path — on
unintelligible audio `recognize_speech_from_microphone` returns Python `None`,
not the empty string. -/
theorem claim7_counterexample :
    recognize_speech_from_microphone RecResult.unknownValue = Except.ok none ∧
    recognize_speech_from_microphone RecResult.unknownValue ≠
      Except.ok (some "") := by
  constructor
  · rfl
  · simp [recognize_speech_from_microphone]

/-- C7 (amended): speech-recognition failures never propagate out of the two
cited entry points — `speech.py`'s `speech_to_text` returns the empty string
on unintelligible audio, transport errors, and any other exception, while
`app.py`'s `recognize_speech_from_microphone` returns `None` (a caught,
non-raising value) for the two recognizer error kinds. -/
theorem claim7_asr_failures_benign (m : String) :
    speech_to_text RecResult.unknownValue = "" ∧
    speech_to_text (RecResult.requestError m) = "" ∧
    speech_to_text (RecResult.otherError m) = "" ∧
    recognize_speech_from_microphone RecResult.unknownValue = Except.ok none ∧
    recognize_speech_from_microphone (RecResult.requestError m) = Except.ok none := by
  exact ⟨rfl, rfl, rfl, rfl, rfl⟩
